import Mathlib

/-!
Verification of the Nutrition-Agent repository core: a shallow embedding of
the user memory store (user_memory.py), the structured nutrient table
(nutrition_database.py), the USDA tool (tools/usda_food_search_tool.py) and
the tiered resolution engine (tools/nutrition_query_tool.py), together with
theorems settling the specification claims about them.

Modelling conventions:
- Python floats appearing in the code are only stored and compared, never
  subjected to rounding-sensitive arithmetic, so they are modelled as ℚ.
- datetime.now().isoformat() timestamps are modelled as an explicit Nat
  clock passed to each mutating operation; ISO-8601 strings produced by a
  strictly advancing clock compare exactly like the Nats that produced them.
- The per-user JSON files are modelled as a Store mapping user id to an
  optional (already parsed) profile; a separate byte-level model with an
  abstract parse function is used for the claim about unparseable files.
- Python str comparison (code-point lexicographic) and str.lower are
  re-implemented over List Char because the built-in String order does not
  reduce in the kernel.
-/

namespace NutritionAgent

/-- Lexicographic code-point comparison on char lists, the semantics of
Python string comparison used by sort keys and date-range filters. -/
def charsLe : List Char → List Char → Bool
  | [], _ => true
  | _ :: _, [] => false
  | a :: as, b :: bs =>
    if a.toNat < b.toNat then true
    else if b.toNat < a.toNat then false
    else charsLe as bs

/-- Python string less-or-equal (lexicographic by code point). -/
def strLe (a b : String) : Bool := charsLe a.data b.data

/-! ## Data model of user_memory.py -/

/-- Model of time stamps produced by datetime.now(); strictly advancing. -/
abbrev Timestamp := Nat

/-- DailyLogEntry (user_memory.py): one recorded food item. -/
structure DailyLogEntry where
  food_name : String
  amount : ℚ
  unit : String
  calories : Option ℚ := none
  protein : Option ℚ := none
  carbs : Option ℚ := none
  fat : Option ℚ := none
deriving DecidableEq

/-- DailyLog (user_memory.py): the entries recorded for one calendar date. -/
structure DailyLog where
  date : String
  entries : List DailyLogEntry := []
deriving DecidableEq

/-- Goal (user_memory.py): a user health goal. -/
structure Goal where
  goal_id : String
  description : String
  target_value : ℚ
  unit : String
  start_date : String
  target_date : String
  status : String := "active"
deriving DecidableEq

/-- ConsultationRecord (user_memory.py). -/
structure ConsultationRecord where
  consultation_id : String
  user_id : String
  date : String
  question : String
  answer : String
  category : String
  created_at : Timestamp
deriving DecidableEq

/-- UserProfile (user_memory.py). -/
structure UserProfile where
  user_id : String
  name : String
  age : Int
  gender : String
  height : ℚ
  weight : ℚ
  activity_level : String
  health_goal : String
  dietary_restrictions : String
  preferences : String
  created_at : Timestamp
  updated_at : Timestamp
  consultations : List ConsultationRecord := []
  daily_logs : List DailyLog := []
  goals : List Goal := []
deriving DecidableEq

/-- The profile directory: one (parsed) profile per user id. -/
abbrev Store := String → Option UserProfile

/-- Overwrite of the single JSON file backing one user (UserMemory._save_user_profile). -/
def setStore (s : Store) (uid : String) (p : UserProfile) : Store :=
  fun k => if k = uid then some p else s k

/-- The kwargs dict accepted by create_user_profile / update_user_profile,
restricted to the known UserProfile fields the code reads or merges. -/
structure ProfileKwargs where
  name : Option String := none
  age : Option Int := none
  gender : Option String := none
  height : Option ℚ := none
  weight : Option ℚ := none
  activity_level : Option String := none
  health_goal : Option String := none
  dietary_restrictions : Option String := none
  preferences : Option String := none
  consultations : Option (List ConsultationRecord) := none
  daily_logs : Option (List DailyLog) := none
  goals : Option (List Goal) := none

/-- The fresh profile dict built by create_user_profile when no file exists:
kwargs.get with the built-in defaults, both timestamps set to now, empty
collections.  (The collection kwargs are not read by the create path.) -/
def freshProfile (uid : String) (kw : ProfileKwargs) (now : Timestamp) : UserProfile :=
  { user_id := uid
    name := kw.name.getD uid
    age := kw.age.getD 30
    gender := kw.gender.getD "未知"
    height := kw.height.getD 170
    weight := kw.weight.getD 65
    activity_level := kw.activity_level.getD "轻度活动"
    health_goal := kw.health_goal.getD "维持体重"
    dietary_restrictions := kw.dietary_restrictions.getD "无"
    preferences := kw.preferences.getD "无"
    created_at := now
    updated_at := now
    consultations := []
    daily_logs := []
    goals := [] }

/-- The merge loop of update_user_profile: every supplied kwarg whose key is
a known profile field overwrites that field (collections included), then
updated_at is stamped with now. -/
def mergeKnown (p : UserProfile) (kw : ProfileKwargs) (now : Timestamp) : UserProfile :=
  { p with
    name := kw.name.getD p.name
    age := kw.age.getD p.age
    gender := kw.gender.getD p.gender
    height := kw.height.getD p.height
    weight := kw.weight.getD p.weight
    activity_level := kw.activity_level.getD p.activity_level
    health_goal := kw.health_goal.getD p.health_goal
    dietary_restrictions := kw.dietary_restrictions.getD p.dietary_restrictions
    preferences := kw.preferences.getD p.preferences
    consultations := kw.consultations.getD p.consultations
    daily_logs := kw.daily_logs.getD p.daily_logs
    goals := kw.goals.getD p.goals
    updated_at := now }

/-- UserMemory.update_user_profile over parsed stores: on an existing
profile merge the known fields and stamp updated_at; on a missing backing
file fall through to create_user_profile, whose absent branch builds the
fresh default-filled profile.  This parse-level model is exact only for
stores in which every existing file parses; the exists-but-unparseable
file case is modelled at the byte level by updateRawFuel below, where the
source's update/create mutual recursion never terminates. -/
def updateUserProfile (s : Store) (uid : String) (kw : ProfileKwargs) (now : Timestamp) :
    Bool × Store :=
  match s uid with
  | some p => (true, setStore s uid (mergeKnown p kw now))
  | none => (true, setStore s uid (freshProfile uid kw now))

/-- UserMemory.create_user_profile: if the backing file exists delegate to
update_user_profile, otherwise write the fresh default-filled profile. -/
def createUserProfile (s : Store) (uid : String) (kw : ProfileKwargs) (now : Timestamp) :
    Bool × Store :=
  match s uid with
  | some _ => updateUserProfile s uid kw now
  | none => (true, setStore s uid (freshProfile uid kw now))

/-- The ConsultationRecord built by add_consultation_record. -/
def mkConsultation (uid question answer category : String) (now : Timestamp) :
    ConsultationRecord :=
  { consultation_id := uid ++ "_" ++ toString now
    user_id := uid
    date := toString now
    question := question
    answer := answer
    category := category
    created_at := now }

/-- UserMemory.add_consultation_record: refuses (returns false) when the
profile is absent; otherwise appends the record and stamps updated_at. -/
def addConsultationRecord (s : Store) (uid question answer category : String)
    (now : Timestamp) : Bool × Store :=
  match s uid with
  | none => (false, s)
  | some p =>
    let r := mkConsultation uid question answer category now
    (true, setStore s uid
      { p with consultations := p.consultations ++ [r], updated_at := now })

/-- In-place entry append on the first daily log with the given date
(the object mutated by _get_or_create_daily_log / add_daily_log_entry). -/
def addEntryFirst : List DailyLog → String → DailyLogEntry → List DailyLog
  | [], _, _ => []
  | l :: ls, d, e =>
    if l.date = d then { l with entries := l.entries ++ [e] } :: ls
    else l :: addEntryFirst ls d e

/-- The list.sort(key=lambda x: x.date) call in _get_or_create_daily_log:
a stable sort by date under Python's lexicographic string order. -/
def sortLogsByDate (ls : List DailyLog) : List DailyLog :=
  List.insertionSort (fun a b : DailyLog => strLe a.date b.date = true) ls

instance : DecidableRel (fun a b : DailyLog => strLe a.date b.date = true) :=
  fun _ _ => inferInstance

/-- UserMemory.add_daily_log_entry: fails on an absent profile; otherwise
_get_or_create_daily_log finds the log for the date, or appends a fresh
empty log and re-sorts the list by date, and the validated entry is appended
to that log; updated_at is stamped. -/
def addDailyLogEntry (s : Store) (uid dateStr : String) (e : DailyLogEntry)
    (now : Timestamp) : Bool × Store :=
  match s uid with
  | none => (false, s)
  | some p =>
    let logs :=
      if p.daily_logs.any (fun l => l.date == dateStr) then
        addEntryFirst p.daily_logs dateStr e
      else
        addEntryFirst (sortLogsByDate (p.daily_logs ++ [{ date := dateStr }])) dateStr e
    (true, setStore s uid { p with daily_logs := logs, updated_at := now })

/-- UserMemory.get_daily_logs_for_period: None on an absent profile;
otherwise the logs whose date lies in the inclusive range, sorted by date. -/
def getDailyLogsForPeriod (s : Store) (uid startDate endDate : String) :
    Option (List DailyLog) :=
  match s uid with
  | none => none
  | some p =>
    some (sortLogsByDate (p.daily_logs.filter
      (fun l => strLe startDate l.date && strLe l.date endDate)))

/-- The goal fields supplied by the caller of set_user_goal (goal_id is
generated by the method itself, status defaults to active). -/
structure GoalData where
  description : String
  target_value : ℚ
  unit : String
  start_date : String
  target_date : String
  status : Option String := none

/-- UserMemory.set_user_goal: fails on an absent profile; otherwise appends
a goal with a generated goal_id and stamps updated_at. -/
def setUserGoal (s : Store) (uid : String) (g : GoalData) (now : Timestamp) :
    Bool × Store :=
  match s uid with
  | none => (false, s)
  | some p =>
    let goal : Goal :=
      { goal_id := uid ++ "_goal_" ++ toString now
        description := g.description
        target_value := g.target_value
        unit := g.unit
        start_date := g.start_date
        target_date := g.target_date
        status := g.status.getD "active" }
    (true, setStore s uid { p with goals := p.goals ++ [goal], updated_at := now })

/-- The loop of update_goal_status: set the status of the first goal whose
goal_id matches, leave all others untouched. -/
def setStatusFirst : List Goal → String → String → List Goal
  | [], _, _ => []
  | g :: gs, gid, st =>
    if g.goal_id = gid then { g with status := st } :: gs
    else g :: setStatusFirst gs gid st

/-- UserMemory.update_goal_status: fails on an absent profile or an unknown
goal_id; otherwise rewrites the first matching goal's status and stamps
updated_at. -/
def updateGoalStatus (s : Store) (uid gid newStatus : String) (now : Timestamp) :
    Bool × Store :=
  match s uid with
  | none => (false, s)
  | some p =>
    if p.goals.any (fun g => g.goal_id == gid) then
      (true, setStore s uid
        { p with goals := setStatusFirst p.goals gid newStatus, updated_at := now })
    else (false, s)

/-! ## Byte-level model of get_user_profile for the unparseable-file claim -/

/-- The on-disk profile directory as raw file contents. -/
abbrev RawFs := String → Option String

/-- The backing file path for one user (UserMemory._get_user_filepath). -/
def userFilepath (uid : String) : String := uid ++ ".json"

/-- UserMemory.get_user_profile at the file level: absent file gives None;
an existing file is read (never written) and handed to json.load plus
pydantic validation, modelled by the parse argument; any parse or
validation failure is caught and turned into None.  The filesystem is
returned unchanged: the method opens the file read-only. -/
def getUserProfileRaw (fs : RawFs) (parse : String → Option UserProfile)
    (uid : String) : Option UserProfile × RawFs :=
  match fs (userFilepath uid) with
  | none => (none, fs)
  | some content => (parse content, fs)

/-- Full rewrite of one backing file (UserMemory._save_user_profile at the
byte level, with the pydantic dict/json.dump serialization abstracted as
the ser argument of the operations below). -/
def setFile (fs : RawFs) (path content : String) : RawFs :=
  fun k => if k = path then some content else fs k

mutual

/-- UserMemory.create_user_profile at the file level: the existence check
is os.path.exists on the backing file, so an existing file delegates to
update_user_profile whether or not its content parses; only a truly
missing file takes the fresh-profile branch.  The fuel argument counts
the remaining Python recursion depth: exhausting it models the
interpreter's RecursionError, an outcome with no Boolean result and no
write. -/
def createRawFuel : Nat → RawFs → (String → Option UserProfile) →
    (UserProfile → String) → String → ProfileKwargs → Timestamp →
    Option (Bool × RawFs)
  | 0, _, _, _, _, _, _ => none
  | fuel + 1, fs, parse, ser, uid, kw, now =>
    if (fs (userFilepath uid)).isSome then
      updateRawFuel fuel fs parse ser uid kw now
    else
      some (true, setFile fs (userFilepath uid) (ser (freshProfile uid kw now)))

/-- UserMemory.update_user_profile at the file level: get_user_profile
yields None both for a missing file and for an existing file whose content
fails to parse, and either way update falls through to
create_user_profile; on a parsed profile the known fields are merged,
updated_at is stamped and the file fully rewritten.  The fuel argument is
the remaining Python recursion depth, as in createRawFuel. -/
def updateRawFuel : Nat → RawFs → (String → Option UserProfile) →
    (UserProfile → String) → String → ProfileKwargs → Timestamp →
    Option (Bool × RawFs)
  | 0, _, _, _, _, _, _ => none
  | fuel + 1, fs, parse, ser, uid, kw, now =>
    match (getUserProfileRaw fs parse uid).1 with
    | none => createRawFuel fuel fs parse ser uid kw now
    | some p => some (true, setFile fs (userFilepath uid) (ser (mergeKnown p kw now)))

end

/-- UserMemory.add_consultation_record at the file level: an absent or
unparseable profile makes it refuse immediately (returns false, writes
nothing, no recursion); otherwise the record is appended, updated_at
stamped, and the file rewritten. -/
def addConsultationRecordRaw (fs : RawFs) (parse : String → Option UserProfile)
    (ser : UserProfile → String) (uid q a c : String) (now : Timestamp) :
    Bool × RawFs :=
  match (getUserProfileRaw fs parse uid).1 with
  | none => (false, fs)
  | some p =>
    (true, setFile fs (userFilepath uid)
      (ser { p with consultations := p.consultations ++ [mkConsultation uid q a c now],
                    updated_at := now }))

/-! ## Structured nutrient table (nutrition_database.py) -/

/-- One row of the nutrition_data table: the food name, the fixed nutrient
columns (per 100 g) and the category. -/
structure FoodRecord where
  food_name : String
  calories : ℚ
  protein : ℚ
  carbs : ℚ
  fat : ℚ
  fiber : ℚ
  vitamin_c : ℚ
  calcium : ℚ
  iron : ℚ
  category : String
deriving DecidableEq

/-- NutritionDatabase.get_nutrition_by_name: None when no data is loaded,
otherwise the first row whose food_name equals the query, case-sensitively. -/
def getNutritionByName (table : Option (List FoodRecord)) (q : String) :
    Option FoodRecord :=
  match table with
  | none => none
  | some rows => rows.find? (fun r => r.food_name == q)

/-! ## USDA tool (tools/usda_food_search_tool.py) -/

/-- The NUTRIENTS_OF_INTEREST mapping from USDA nutrient ids to the
canonical field names. -/
def NUTRIENTS_OF_INTEREST : List (String × String) :=
  [("1003", "蛋白质"), ("1004", "总脂肪"), ("1005", "碳水化合物"),
   ("1008", "热量"), ("1079", "纤维"), ("1062", "糖"), ("1087", "钙"),
   ("1089", "铁"), ("1110", "维生素D"), ("1162", "维生素C"), ("1109", "维生素B12")]

/-- One entry of a USDA food item's foodNutrients list. -/
structure UsdaApiNutrient where
  nutrientId : String
  value : ℚ
deriving DecidableEq

/-- One food item of a USDA search response. -/
structure UsdaApiFood where
  description : String
  foodNutrients : List UsdaApiNutrient
deriving DecidableEq

/-- Python dict assignment on an association list: replace the value at an
existing key in place, otherwise add the binding at the end. -/
def dictInsert (acc : List (String × ℚ)) (k : String) (v : ℚ) : List (String × ℚ) :=
  if acc.any (fun p => p.1 == k) then
    acc.map (fun p => if p.1 == k then (k, v) else p)
  else acc ++ [(k, v)]

/-- One iteration of the nutrient-extraction loop of
_search_food_nutrition_structured: keep the nutrient (under its canonical
name) only when its id is in NUTRIENTS_OF_INTEREST; any other nutrient
falls through the loop unrecorded. -/
def nvStep (acc : List (String × ℚ)) (n : UsdaApiNutrient) : List (String × ℚ) :=
  match NUTRIENTS_OF_INTEREST.lookup n.nutrientId with
  | some nm => dictInsert acc nm n.value
  | none => acc

/-- The nutrient-extraction loop of _search_food_nutrition_structured over
the food item's full foodNutrients list, starting from the empty dict. -/
def nutrientValues (ns : List UsdaApiNutrient) : List (String × ℚ) :=
  ns.foldl nvStep []

/-- The structured result dict returned by _search_food_nutrition_structured
once a response with a nonempty foods list is in hand: the first food's
description plus its extracted nutrient values. -/
structure UsdaData where
  food_name : String
  nutrients : List (String × ℚ)
deriving DecidableEq

/-- Result processing of _search_food_nutrition_structured on a parsed
response body: None when data.get("foods") is empty, otherwise the
structured dict for the first food item. -/
def structuredResult (foods : List UsdaApiFood) : Option UsdaData :=
  match foods with
  | [] => none
  | f :: _ => some ⟨f.description, nutrientValues f.foodNutrients⟩

/-- A provider HTTP request as constructed at a call site; timeoutSeconds
is the explicit timeout argument handed to the requests library, None when
the call site passes no timeout. -/
structure HttpRequest where
  url : String
  query : String
  timeoutSeconds : Option ℚ
deriving DecidableEq

/-- The requests.get call of _search_food_nutrition_structured: url is
BASE_URL/foods/search with the query in params, and no timeout argument is
passed. -/
def usdaSearchRequest (baseUrl q : String) : HttpRequest :=
  { url := baseUrl ++ "/foods/search", query := q, timeoutSeconds := none }

/-- The requests.post call of NutritionQueryTool._run step 2: the
Nutritionix natural-language endpoint, called with timeout=10. -/
def nutritionixRequest (apiUrl q : String) : HttpRequest :=
  { url := apiUrl, query := q, timeoutSeconds := some 10 }

/-! ## Resolution engine (NutritionQueryTool._run) -/

/-- Outcome of the USDA step as seen by the tool: the helper returned a
structured dict, returned None (miss, configuration gap or caught provider
error), or raised an exception that the tool's own try/except absorbs. -/
inductive UsdaOutcome where
  | found (d : UsdaData)
  | missed
  | raised (e : String)
deriving DecidableEq

/-- True when the USDA step yields no data (tool falls through to step 1). -/
def UsdaOutcome.isMiss : UsdaOutcome → Bool
  | .found _ => false
  | .missed => true
  | .raised _ => true

/-- One food item of a Nutritionix response. -/
structure NxFood where
  food_name : String
  serving_qty : ℚ
  serving_unit : String
  nf_calories : ℚ
  nf_protein : ℚ
  nf_total_carbohydrate : ℚ
  nf_total_fat : ℚ
deriving DecidableEq

/-- Behaviour of the Nutritionix call in step 2: each failure mode the code
distinguishes with its own except branch, or a parsed foods list. -/
inductive NutritionixOutcome where
  | timeout
  | httpError (status : Nat) (text : String)
  | otherError (msg : String)
  | ok (foods : List NxFood)
deriving DecidableEq

/-- The environment one _run call executes in: the behaviour of the USDA
step, the loaded local table, whether the local-database step raises (the
try/except around step 1), the ordered similarity-search candidates with
their L2 distances (search_nutrition returns them distance-ascending and
already catches its own errors, returning an empty list), the Nutritionix
key configuration and the Nutritionix call behaviour. -/
structure EngineEnv where
  usda : UsdaOutcome
  table : Option (List FoodRecord)
  localRaises : Bool
  semantic : List (FoodRecord × ℚ)
  nutritionixConfigured : Bool
  nutritionix : NutritionixOutcome

/-- The typed reasons behind the distinct not-found / error strings _run
returns: no Nutritionix key, request timeout, HTTP error, unknown error,
or all sources exhausted. -/
inductive NotFoundReason where
  | noApiKey
  | timeout
  | httpError (status : Nat) (text : String)
  | unknownError (msg : String)
  | allSourcesEmpty
deriving DecidableEq

/-- The shape of what _run hands back to the conversational layer: a found
result from one of the four tiers, a disambiguation suggestion list, a
typed not-found message — or an exception escaping the tool, which the
code is claimed never to produce. -/
inductive Outcome where
  | foundAuthoritative (d : UsdaData)
  | foundLocal (r : FoodRecord)
  | foundSemantic (r : FoodRecord)
  | foundSecondary (foods : List NxFood)
  | suggestions (names : List String)
  | notFound (reason : NotFoundReason)
  | exception (msg : String)
deriving DecidableEq

/-- True on the found outcomes of any tier. -/
def Outcome.isFound : Outcome → Bool
  | .foundAuthoritative _ => true
  | .foundLocal _ => true
  | .foundSemantic _ => true
  | .foundSecondary _ => true
  | _ => false

/-- True on the suggestion-list outcome. -/
def Outcome.isSuggestions : Outcome → Bool
  | .suggestions _ => true
  | _ => false

/-- True on the typed not-found outcome. -/
def Outcome.isNotFound : Outcome → Bool
  | .notFound _ => true
  | _ => false

/-- Python str.lower as the code applies it, over the char sequence. -/
def lowerChars (s : String) : List Char := s.data.map Char.toLower

/-- Python substring containment a in b over char lists. -/
def substrAux : List Char → List Char → Bool
  | a, [] => a.isEmpty
  | a, b :: bs => a.isPrefixOf (b :: bs) || substrAux a bs

/-- The similarity acceptance check of _run: the candidate name equals,
contains, or is contained in the query, all case-insensitively. -/
def acceptable (query name : String) : Bool :=
  lowerChars name == lowerChars query
    || substrAux (lowerChars query) (lowerChars name)
    || substrAux (lowerChars name) (lowerChars query)

/-- The candidate loop of _run over the search results in returned order:
the first candidate passing the acceptance check, if any. -/
def firstAcceptable (q : String) : List (FoodRecord × ℚ) → Option (FoodRecord × ℚ)
  | [] => none
  | c :: cs => if acceptable q c.1.food_name then some c else firstAcceptable q cs

/-- Step 2 of _run: missing Nutritionix credentials give the configuration
message; otherwise the call's outcome maps onto the specific messages, an
empty foods list onto the all-sources-exhausted message, and a nonempty
foods list onto a secondary-tier result. -/
def secondaryStep (env : EngineEnv) : Outcome :=
  if env.nutritionixConfigured then
    match env.nutritionix with
    | .timeout => .notFound .timeout
    | .httpError st tx => .notFound (.httpError st tx)
    | .otherError m => .notFound (.unknownError m)
    | .ok foods =>
      match foods with
      | [] => .notFound .allSourcesEmpty
      | f :: fs => .foundSecondary (f :: fs)
  else .notFound .noApiKey

/-- Steps 1 and 2 of _run: if the local-database try block raises, fall to
step 2; otherwise exact match wins, then the similarity candidates are
scanned (an empty candidate list falls through to step 2, an accepted
candidate is returned, and otherwise the ordered candidate names come back
as a suggestion list). -/
def localAndBeyond (env : EngineEnv) (q : String) : Outcome :=
  if env.localRaises then secondaryStep env
  else
    match getNutritionByName env.table q with
    | some r => .foundLocal r
    | none =>
      match env.semantic with
      | [] => secondaryStep env
      | c :: cs =>
        match firstAcceptable q (c :: cs) with
        | some hit => .foundSemantic hit.1
        | none => .suggestions ((c :: cs).map (fun x => x.1.food_name))

/-- NutritionQueryTool._run: step 0 returns the USDA result when the USDA
helper produced one; a miss or a raised exception (absorbed by the
surrounding try/except) falls through to the local steps. -/
def runEngine (env : EngineEnv) (q : String) : Outcome :=
  match env.usda with
  | .found d => .foundAuthoritative d
  | .missed => localAndBeyond env q
  | .raised _ => localAndBeyond env q

/-! ## Conversational entry point (NutritionAgent.chat) -/

/-- What chat hands back to the UI: a plain answer string, or a raised
exception escaping the method, which the code is claimed never to produce. -/
inductive ChatOut where
  | answer (s : String)
  | raised (e : String)
deriving DecidableEq

/-- The environment of one chat call: the profile store, the agent
executor (which may raise) and the clock. -/
structure ChatEnv where
  store : Store
  agentRun : String → Except String String
  now : Timestamp

/-- The context message built around the user message when a profile
exists. -/
def contextualize (p : Option UserProfile) (msg : String) : String :=
  match p with
  | none => msg
  | some prof =>
    "用户信息：\n姓名: " ++ prof.name ++ "\n性别: " ++ prof.gender
      ++ "\n活动水平: " ++ prof.activity_level ++ "\n健康目标: " ++ prof.health_goal
      ++ "\n饮食限制: " ++ prof.dietary_restrictions ++ "\n食物偏好: " ++ prof.preferences
      ++ "\n\n用户问题：" ++ msg

/-- NutritionAgent.chat: reads the profile, runs the agent on the
contextualised message, records the consultation, and returns the response;
the whole body sits in a try/except that converts any exception into an
error-message answer string. -/
def chat (env : ChatEnv) (uid msg : String) : ChatOut × Store :=
  match env.agentRun (contextualize (env.store uid) msg) with
  | .ok response =>
    (.answer response,
      (addConsultationRecord env.store uid msg response "general" env.now).2)
  | .error e => (.answer ("处理用户消息时发生错误: " ++ e), env.store)

/-! ## Claim-level predicates and concrete witness data -/

/-- The upsert behaviour claimed for create: both calls succeed, the first
leaves a record named na stamped t1, the second leaves exactly one record
at the key, named nb and stamped t2, strictly later than the first stamp,
and no other key is touched. -/
def CreateUpsertSpec (s : Store) (uid na nb : String) (t1 t2 : Timestamp) : Prop :=
  (createUserProfile s uid { name := some na } t1).1 = true
  ∧ (createUserProfile (createUserProfile s uid { name := some na } t1).2
      uid { name := some nb } t2).1 = true
  ∧ (∃ p1, (createUserProfile s uid { name := some na } t1).2 uid = some p1
      ∧ p1.name = na ∧ p1.updated_at = t1)
  ∧ (∃ p2, (createUserProfile (createUserProfile s uid { name := some na } t1).2
        uid { name := some nb } t2).2 uid = some p2
      ∧ p2.name = nb ∧ p2.updated_at = t2 ∧ t1 < p2.updated_at)
  ∧ (∀ k, k ≠ uid →
      (createUserProfile (createUserProfile s uid { name := some na } t1).2
        uid { name := some nb } t2).2 k = s k)

/-- Concrete filesystem for the C8 witness: one malformed profile file. -/
def c8Fs : RawFs := fun k => if k = "u1.json" then some "not json" else none

/-- Concrete parse function for the C8 witness: every content fails to
parse. -/
def c8Parse : String → Option UserProfile := fun _ => none

/-- What the byte-level update/create pair actually does on the two kinds
of absent profile.  No-file half: update succeeds within two frames,
writing the serialized fresh profile whose unsupplied fields take the
built-in defaults, while add_consultation_record refuses.  Unparseable-file
half: for every recursion budget, update and create both run out of fuel
with no result and no write — the source's mutual recursion between
update_user_profile (profile unparseable, treated as absent) and
create_user_profile (os.path.exists sees the file) never terminates — and
add_consultation_record refuses without recursing. -/
def RawUpdateContract (fs : RawFs) (parse : String → Option UserProfile)
    (ser : UserProfile → String) (uid : String) (kw : ProfileKwargs)
    (now : Timestamp) (q a c : String) (fuel : Nat) : Prop :=
  (fs (userFilepath uid) = none →
    updateRawFuel (fuel + 2) fs parse ser uid kw now
      = some (true, setFile fs (userFilepath uid) (ser (freshProfile uid kw now)))
    ∧ (freshProfile uid kw now).name = kw.name.getD uid
    ∧ (freshProfile uid kw now).age = kw.age.getD 30
    ∧ (freshProfile uid kw now).gender = kw.gender.getD "未知"
    ∧ (freshProfile uid kw now).height = kw.height.getD 170
    ∧ (freshProfile uid kw now).weight = kw.weight.getD 65
    ∧ addConsultationRecordRaw fs parse ser uid q a c now = (false, fs))
  ∧ (∀ content, fs (userFilepath uid) = some content → parse content = none →
      updateRawFuel fuel fs parse ser uid kw now = none
      ∧ createRawFuel fuel fs parse ser uid kw now = none
      ∧ addConsultationRecordRaw fs parse ser uid q a c now = (false, fs))

/-- Concrete serializer for the C10 witness (its output is never re-read
by the witnessed operations). -/
def c10Ser : UserProfile → String := fun _ => "serialized-profile"

/-- Concrete 苹果 table row used by witnesses (nutrient values rounded to
integers so the kernel can evaluate them). -/
def appleRec : FoodRecord := ⟨"苹果", 52, 1, 14, 1, 2, 5, 6, 1, "水果"⟩

/-- Concrete 香蕉 table row used by witnesses. -/
def bananaRec : FoodRecord := ⟨"香蕉", 89, 1, 23, 1, 3, 9, 5, 1, "水果"⟩

/-- Concrete engine environment used by the C1 witness: USDA misses, the
table holds the 苹果 row, and the semantic candidate list is nonempty. -/
def c1Env : EngineEnv :=
  { usda := .missed
    table := some [appleRec]
    localRaises := false
    semantic := [(bananaRec, 1)]
    nutritionixConfigured := true
    nutritionix := .ok [] }

/-- The conclusion claimed for the semantic fuzzy tier at a query whose
authoritative tier missed and whose exact local match failed: an accepted
candidate passes the case-insensitive equality/containment check and has
minimal distance among all acceptable candidates, and the engine resolves
to it at the semantic path; when no candidate is acceptable and the
candidate list is nonempty, the engine returns the candidate names in
their given (distance-ascending) order as a suggestion outcome, which is
neither a found nor a not-found outcome. -/
def SemanticTierSpec (env : EngineEnv) (q : String) : Prop :=
  (∀ hit, firstAcceptable q env.semantic = some hit →
      acceptable q hit.1.food_name = true
      ∧ (∀ c ∈ env.semantic, acceptable q c.1.food_name = true → hit.2 ≤ c.2)
      ∧ runEngine env q = .foundSemantic hit.1)
  ∧ (firstAcceptable q env.semantic = none → env.semantic ≠ [] →
      runEngine env q = .suggestions (env.semantic.map (fun c => c.1.food_name))
      ∧ (runEngine env q).isFound = false
      ∧ (runEngine env q).isNotFound = false)

/-- Concrete engine environment for the C3 witness: the USDA tier misses,
the table has no exact match for the query, and the distance-ascending
semantic candidates are the 苹果 and 香蕉 rows. -/
def c3Env : EngineEnv :=
  { usda := .missed
    table := some [bananaRec]
    localRaises := false
    semantic := [(appleRec, 1), (bananaRec, 2)]
    nutritionixConfigured := true
    nutritionix := .ok [] }

/-- The conclusion claimed for appending a daily-log entry on a date with
no existing log: the operation succeeds, the stored profile's daily_logs
list is sorted ascending by date, it contains a new log for the date
holding exactly the appended entry, and updated_at takes the stamp. -/
def FreshDateAppendSpec (s : Store) (uid d : String) (e : DailyLogEntry)
    (now : Timestamp) : Prop :=
  (addDailyLogEntry s uid d e now).1 = true
  ∧ ∃ p', (addDailyLogEntry s uid d e now).2 uid = some p'
      ∧ p'.daily_logs.Sorted (fun a b : DailyLog => strLe a.date b.date = true)
      ∧ ({ date := d, entries := [e] } : DailyLog) ∈ p'.daily_logs
      ∧ p'.updated_at = now

/-- Concrete store for the C9 scenario: the user u1 with a fresh default
profile and no daily logs. -/
def c9Store : Store := setStore (fun _ => none) "u1" (freshProfile "u1" {} 0)

/-- First scenario entry of C9. -/
def c9Entry1 : DailyLogEntry := { food_name := "苹果", amount := 100, unit := "g" }

/-- Second scenario entry of C9. -/
def c9Entry2 : DailyLogEntry := { food_name := "香蕉", amount := 1, unit := "个" }

/-- The amended mutation contract for a stored profile p at key uid under
a strictly advanced clock: every successful mutating operation stamps
updated_at with the strictly larger clock value; the dedicated
collection operations only append (add_consultation_record appends one
record, add_daily_log_entry only grows log entry lists, set_user_goal
appends one goal) and update_goal_status rewrites at most the status
fields of existing goals; update_user_profile, by contrast, is only
guaranteed to advance updated_at, since an explicitly passed collection
kwarg replaces the stored collection wholesale. -/
def MutationContract (s : Store) (uid : String) (p : UserProfile)
    (now : Timestamp) : Prop :=
  (∀ kw p', (updateUserProfile s uid kw now).1 = true →
      (updateUserProfile s uid kw now).2 uid = some p' →
      p'.updated_at = now ∧ p.updated_at < p'.updated_at)
  ∧ (∀ q a c p', (addConsultationRecord s uid q a c now).1 = true →
      (addConsultationRecord s uid q a c now).2 uid = some p' →
      p'.updated_at = now ∧ p.updated_at < p'.updated_at
      ∧ p'.consultations = p.consultations ++ [mkConsultation uid q a c now]
      ∧ p'.daily_logs = p.daily_logs ∧ p'.goals = p.goals)
  ∧ (∀ d e p', (addDailyLogEntry s uid d e now).1 = true →
      (addDailyLogEntry s uid d e now).2 uid = some p' →
      p'.updated_at = now ∧ p.updated_at < p'.updated_at
      ∧ p'.consultations = p.consultations ∧ p'.goals = p.goals
      ∧ ∀ l ∈ p.daily_logs, ∃ l' ∈ p'.daily_logs,
          l'.date = l.date ∧ ∃ t, l'.entries = l.entries ++ t)
  ∧ (∀ g p', (setUserGoal s uid g now).1 = true →
      (setUserGoal s uid g now).2 uid = some p' →
      p'.updated_at = now ∧ p.updated_at < p'.updated_at
      ∧ p'.consultations = p.consultations ∧ p'.daily_logs = p.daily_logs
      ∧ ∃ ng, p'.goals = p.goals ++ [ng])
  ∧ (∀ gid st p', (updateGoalStatus s uid gid st now).1 = true →
      (updateGoalStatus s uid gid st now).2 uid = some p' →
      p'.updated_at = now ∧ p.updated_at < p'.updated_at
      ∧ p'.consultations = p.consultations ∧ p'.daily_logs = p.daily_logs
      ∧ List.Forall₂ (fun g g' => g' = g ∨ g' = { g with status := st })
          p.goals p'.goals)

/-- Concrete profile for the C7 counterexample and witness: one stored
consultation record, last updated at time 1. -/
def c7Profile : UserProfile :=
  { user_id := "u1", name := "甲", age := 30, gender := "女", height := 170,
    weight := 65, activity_level := "轻度活动", health_goal := "维持体重",
    dietary_restrictions := "无", preferences := "无", created_at := 1,
    updated_at := 1,
    consultations := [⟨"u1_0", "u1", "0", "问", "答", "general", 0⟩],
    daily_logs := [], goals := [] }

/-- Concrete one-user store for the C7 counterexample and witness. -/
def c7Store : Store := setStore (fun _ => none) "u1" c7Profile

/-- Concrete chat environment for the C2 witness: empty profile store and
an agent executor that always raises. -/
def c2ChatEnv : ChatEnv :=
  { store := fun _ => none
    agentRun := fun _ => .error "boom"
    now := 0 }

/-! ## Shared lemmas -/

theorem charsLe_total (a b : List Char) : charsLe a b = true ∨ charsLe b a = true := by
  induction a generalizing b with
  | nil => left; rfl
  | cons x xs ih =>
    cases b with
    | nil => right; rfl
    | cons y ys =>
      by_cases hxy : x.toNat < y.toNat
      · left; simp [charsLe, hxy]
      · by_cases hyx : y.toNat < x.toNat
        · right; simp [charsLe, hyx]
        · rcases ih ys with h | h
          · left; simp [charsLe, hxy, hyx, h]
          · right; simp [charsLe, hxy, hyx, h]

theorem charsLe_trans {a b c : List Char} (hab : charsLe a b = true)
    (hbc : charsLe b c = true) : charsLe a c = true := by
  induction a generalizing b c with
  | nil => rfl
  | cons x xs ih =>
    cases b with
    | nil => simp [charsLe] at hab
    | cons y ys =>
      cases c with
      | nil => simp [charsLe] at hbc
      | cons z zs =>
        by_cases hxy : x.toNat < y.toNat
        · by_cases hyz : y.toNat < z.toNat
          · simp [charsLe, Nat.lt_trans hxy hyz]
          · by_cases hzy : z.toNat < y.toNat
            · simp [charsLe, hyz, hzy] at hbc
            · have hyz' : y.toNat = z.toNat :=
                Nat.le_antisymm (Nat.le_of_not_lt hzy) (Nat.le_of_not_lt hyz)
              simp [charsLe, hyz' ▸ hxy]
        · by_cases hyx : y.toNat < x.toNat
          · simp [charsLe, hxy, hyx] at hab
          · have hxy' : x.toNat = y.toNat :=
              Nat.le_antisymm (Nat.le_of_not_lt hyx) (Nat.le_of_not_lt hxy)
            by_cases hyz : y.toNat < z.toNat
            · simp [charsLe, hxy' ▸ hyz]
            · by_cases hzy : z.toNat < y.toNat
              · simp [charsLe, hyz, hzy] at hbc
              · simp [charsLe, hxy, hyx] at hab
                simp [charsLe, hyz, hzy] at hbc
                simp [charsLe, hxy' ▸ hyz, hxy' ▸ hzy, ih hab hbc]

instance : IsTotal DailyLog (fun a b : DailyLog => strLe a.date b.date = true) :=
  ⟨fun a b => charsLe_total a.date.data b.date.data⟩

instance : IsTrans DailyLog (fun a b : DailyLog => strLe a.date b.date = true) :=
  ⟨fun _ _ _ hab hbc => charsLe_trans hab hbc⟩

theorem secondaryStep_classified (env : EngineEnv) :
    (secondaryStep env).isFound = true ∨ (secondaryStep env).isSuggestions = true
      ∨ (secondaryStep env).isNotFound = true := by
  unfold secondaryStep
  repeat' split
  all_goals simp [Outcome.isFound, Outcome.isSuggestions, Outcome.isNotFound]

theorem runEngine_classified (env : EngineEnv) (q : String) :
    (runEngine env q).isFound = true ∨ (runEngine env q).isSuggestions = true
      ∨ (runEngine env q).isNotFound = true := by
  unfold runEngine localAndBeyond
  repeat' split
  all_goals
    first
      | exact secondaryStep_classified env
      | simp [Outcome.isFound, Outcome.isSuggestions, Outcome.isNotFound]

/-! ## Claim theorems -/

/-- C1: whenever the USDA (authoritative) tier misses or raises and the
local-database step does not itself raise, a query equal to the exact
case-sensitive food_name of a structured-table record resolves to that
record with source tier Local; the semantic candidates and the Nutritionix
configuration are universally quantified and may even be replaced
arbitrarily without changing the result, so the engine short-circuits
before the semantic and secondary tiers are consulted. -/
theorem c1_local_exact_short_circuit (env : EngineEnv) (q : String) (r : FoodRecord)
    (husda : env.usda.isMiss = true)
    (hlocal : env.localRaises = false)
    (hhit : getNutritionByName env.table q = some r) :
    runEngine env q = .foundLocal r ∧ r.food_name = q
      ∧ ∀ sem nx cfg,
          runEngine { env with semantic := sem, nutritionix := nx,
                               nutritionixConfigured := cfg } q = .foundLocal r := by
  have hname : r.food_name = q := by
    cases htab : env.table with
    | none => rw [htab] at hhit; simp [getNutritionByName] at hhit
    | some rows =>
      rw [htab] at hhit
      simp only [getNutritionByName] at hhit
      have := List.find?_some hhit
      simpa using this
  have hrun : ∀ sem nx cfg,
      runEngine { env with semantic := sem, nutritionix := nx,
                           nutritionixConfigured := cfg } q = .foundLocal r := by
    intro sem nx cfg
    cases hu : env.usda with
    | found d => rw [hu] at husda; simp [UsdaOutcome.isMiss] at husda
    | missed => simp [runEngine, hu, localAndBeyond, hlocal, hhit]
    | raised e => simp [runEngine, hu, localAndBeyond, hlocal, hhit]
  refine ⟨?_, hname, hrun⟩
  have := hrun env.semantic env.nutritionix env.nutritionixConfigured
  simpa using this

theorem lookup_mem {l : List (String × String)} {a b : String}
    (h : l.lookup a = some b) : (a, b) ∈ l := by
  induction l with
  | nil => simp [List.lookup] at h
  | cons p ps ih =>
    rcases p with ⟨k, v⟩
    by_cases hak : a = k
    · subst hak
      simp [List.lookup] at h
      simp [h]
    · have hbeq : (a == k) = false := by simpa using hak
      rw [List.lookup, hbeq] at h
      exact List.mem_cons_of_mem _ (ih h)

theorem dictInsert_key_mem {acc : List (String × ℚ)} {k : String} {v : ℚ}
    {p : String × ℚ} (hp : p ∈ dictInsert acc k v) :
    p.1 = k ∨ ∃ q ∈ acc, p.1 = q.1 := by
  unfold dictInsert at hp
  split at hp
  · rcases List.mem_map.mp hp with ⟨q, hq, hfq⟩
    by_cases hqk : q.1 = k
    · left
      have : (q.1 == k) = true := by simpa using hqk
      rw [this] at hfq
      simp at hfq
      rw [← hfq]
    · right
      have : (q.1 == k) = false := by simpa using hqk
      rw [this] at hfq
      simp at hfq
      exact ⟨q, hq, by rw [← hfq]⟩
  · rcases List.mem_append.mp hp with h | h
    · right; exact ⟨p, h, rfl⟩
    · left; simp at h; rw [h]

theorem dictInsert_keys_self (acc : List (String × ℚ)) (k : String) (v : ℚ) :
    ∃ w, (k, w) ∈ dictInsert acc k v := by
  unfold dictInsert
  split
  · rename_i hany
    rcases List.any_eq_true.mp hany with ⟨q, hq, hqk⟩
    refine ⟨v, List.mem_map.mpr ⟨q, hq, ?_⟩⟩
    rw [hqk]
    simp
  · exact ⟨v, List.mem_append.mpr (Or.inr (by simp))⟩

theorem dictInsert_keys_mono {acc : List (String × ℚ)} {k' : String}
    (h : ∃ w, (k', w) ∈ acc) (k : String) (v : ℚ) :
    ∃ w, (k', w) ∈ dictInsert acc k v := by
  rcases h with ⟨w, hw⟩
  unfold dictInsert
  split
  · by_cases hk : k' = k
    · subst hk
      refine ⟨v, List.mem_map.mpr ⟨(k', w), hw, ?_⟩⟩
      simp
    · refine ⟨w, List.mem_map.mpr ⟨(k', w), hw, ?_⟩⟩
      have : ((k', w).1 == k) = false := by simpa using hk
      rw [this]
      simp
  · exact ⟨w, List.mem_append.mpr (Or.inl hw)⟩

theorem foldl_nvStep_keys (ns : List UsdaApiNutrient) (acc : List (String × ℚ))
    (hacc : ∀ p ∈ acc, ∃ id, (id, p.1) ∈ NUTRIENTS_OF_INTEREST) :
    ∀ p ∈ ns.foldl nvStep acc, ∃ id, (id, p.1) ∈ NUTRIENTS_OF_INTEREST := by
  induction ns generalizing acc with
  | nil => exact hacc
  | cons n ns ih =>
    intro p hp
    refine ih _ ?_ p hp
    intro q hq
    unfold nvStep at hq
    cases hl : NUTRIENTS_OF_INTEREST.lookup n.nutrientId with
    | none => rw [hl] at hq; exact hacc q hq
    | some nm =>
      rw [hl] at hq
      rcases dictInsert_key_mem hq with h1 | ⟨r, hr, h2⟩
      · exact ⟨n.nutrientId, h1 ▸ lookup_mem hl⟩
      · rcases hacc r hr with ⟨id, hid⟩
        exact ⟨id, h2 ▸ hid⟩

theorem foldl_nvStep_keys_mono (ns : List UsdaApiNutrient)
    (acc : List (String × ℚ)) {k' : String} (h : ∃ w, (k', w) ∈ acc) :
    ∃ w, (k', w) ∈ ns.foldl nvStep acc := by
  induction ns generalizing acc with
  | nil => exact h
  | cons n ns ih =>
    refine ih _ ?_
    unfold nvStep
    cases hl : NUTRIENTS_OF_INTEREST.lookup n.nutrientId with
    | none => exact h
    | some nm => exact dictInsert_keys_mono h nm n.value

/-- C4 amended: the nutrient mapping of _search_food_nutrition_structured
keeps a returned nutrient exactly when its id is on the NUTRIENTS_OF_INTEREST
whitelist — every entry of the resulting dict bears a canonical whitelist
name, and every returned nutrient with a whitelisted id ends up recorded
under its canonical name; unmapped nutrients are dropped, no overflow
bucket exists. -/
theorem c4_whitelist_mapping (ns : List UsdaApiNutrient) :
    (∀ p ∈ nutrientValues ns, ∃ id, (id, p.1) ∈ NUTRIENTS_OF_INTEREST)
    ∧ (∀ n ∈ ns, ∀ nm, NUTRIENTS_OF_INTEREST.lookup n.nutrientId = some nm →
        ∃ w, (nm, w) ∈ nutrientValues ns) := by
  constructor
  · exact foldl_nvStep_keys ns [] (by simp)
  · intro n hn nm hnm
    rcases List.append_of_mem hn with ⟨l1, l2, rfl⟩
    rw [nutrientValues, List.foldl_append, List.foldl_cons]
    apply foldl_nvStep_keys_mono
    rw [nvStep, hnm]
    exact dictInsert_keys_self _ nm n.value

/-- Witness for the amended C4, at the counterexample input: the mapped
protein entry is justified by whitelist id 1003 and indeed recorded. -/
theorem c4_whitelist_mapping_witness :
    (∃ id, (id, "蛋白质") ∈ NUTRIENTS_OF_INTEREST)
    ∧ (∃ w, ("蛋白质", w) ∈ nutrientValues [⟨"1003", 5⟩, ⟨"1093", 10⟩]) :=
  ⟨(c4_whitelist_mapping [⟨"1003", 5⟩, ⟨"1093", 10⟩]).1 ("蛋白质", 5) (by decide),
   (c4_whitelist_mapping [⟨"1003", 5⟩, ⟨"1093", 10⟩]).2 ⟨"1003", 5⟩ (by decide)
     "蛋白质" (by decide)⟩

/-- C5 counterexample: the USDA request constructed by
_search_food_nutrition_structured for the query 苹果 carries no timeout
argument, so not every network call to the authoritative and secondary
sources passes an explicit timeout bound. -/
theorem c5_counterexample :
    (usdaSearchRequest "https://api.nal.usda.gov/fdc/v1" "苹果").timeoutSeconds = none := rfl

/-- C5 amended: only the secondary (Nutritionix) call passes an explicit
timeout (10 seconds); the authoritative (USDA) call passes none, for every
base url and query. -/
theorem c5_timeouts (baseUrl q apiUrl q' : String) :
    (usdaSearchRequest baseUrl q).timeoutSeconds = none
    ∧ (nutritionixRequest apiUrl q').timeoutSeconds = some 10 :=
  ⟨rfl, rfl⟩

/-- C6: for every key and every starting store, create(k, name=na) followed
by create(k, name=nb) never errors — the second call delegates to update —
and leaves exactly one record at the key, named nb, whose updated_at stamp
t2 is strictly greater than the stamp t1 written by the first call,
provided the clock strictly advances between the calls. -/
theorem c6_create_upsert (s : Store) (uid na nb : String) (t1 t2 : Timestamp)
    (ht : t1 < t2) : CreateUpsertSpec s uid na nb t1 t2 := by
  unfold CreateUpsertSpec
  cases h0 : s uid with
  | none =>
    refine ⟨?_, ?_, ?_, ?_, ?_⟩
    · simp [createUserProfile, h0]
    · simp [createUserProfile, updateUserProfile, h0, setStore]
    · exact ⟨freshProfile uid { name := some na } t1,
        by simp [createUserProfile, h0, setStore], rfl, rfl⟩
    · refine ⟨mergeKnown (freshProfile uid { name := some na } t1)
        { name := some nb } t2, ?_, rfl, rfl, ht⟩
      simp [createUserProfile, updateUserProfile, h0, setStore]
    · intro k hk
      simp [createUserProfile, updateUserProfile, h0, setStore, hk]
  | some p0 =>
    refine ⟨?_, ?_, ?_, ?_, ?_⟩
    · simp [createUserProfile, updateUserProfile, h0]
    · simp [createUserProfile, updateUserProfile, h0, setStore]
    · exact ⟨mergeKnown p0 { name := some na } t1,
        by simp [createUserProfile, updateUserProfile, h0, setStore], rfl, rfl⟩
    · refine ⟨mergeKnown (mergeKnown p0 { name := some na } t1)
        { name := some nb } t2, ?_, rfl, rfl, ht⟩
      simp [createUserProfile, updateUserProfile, h0, setStore]
    · intro k hk
      simp [createUserProfile, updateUserProfile, h0, setStore, hk]

/-- Witness for C6: the double create on an empty store at times 1 and 2. -/
theorem c6_witness :
    (1 : Timestamp) < 2
    ∧ CreateUpsertSpec (fun _ => none) "u1" "A" "B" 1 2 :=
  ⟨by decide, c6_create_upsert (fun _ => none) "u1" "A" "B" 1 2 (by decide)⟩

/-- C8: when the backing file of a user exists but its content fails to
parse or validate, get_user_profile returns absent rather than raising,
and the filesystem — in particular the faulty file's exact content — is
left unchanged by the read. -/
theorem c8_unparseable_get (fs : RawFs) (parse : String → Option UserProfile)
    (uid content : String)
    (hfile : fs (userFilepath uid) = some content)
    (hbad : parse content = none) :
    getUserProfileRaw fs parse uid = (none, fs)
    ∧ (getUserProfileRaw fs parse uid).2 (userFilepath uid) = some content := by
  constructor
  · simp [getUserProfileRaw, hfile, hbad]
  · simp [getUserProfileRaw, hfile, hbad]

/-- Witness for C8: reading user u1 whose file holds unparseable bytes
returns absent and leaves the file in place. -/
theorem c8_witness :
    c8Fs (userFilepath "u1") = some "not json"
    ∧ c8Parse "not json" = none
    ∧ getUserProfileRaw c8Fs c8Parse "u1" = (none, c8Fs)
    ∧ (getUserProfileRaw c8Fs c8Parse "u1").2 (userFilepath "u1") = some "not json" := by
  refine ⟨rfl, rfl, ?_⟩
  exact c8_unparseable_get c8Fs c8Parse "u1" "not json" rfl rfl

theorem raw_mutual_recursion_diverges (fs : RawFs)
    (parse : String → Option UserProfile) (ser : UserProfile → String)
    (uid : String) (kw : ProfileKwargs) (now : Timestamp) (content : String)
    (hsome : fs (userFilepath uid) = some content) (hbad : parse content = none) :
    ∀ fuel, updateRawFuel fuel fs parse ser uid kw now = none
      ∧ createRawFuel fuel fs parse ser uid kw now = none := by
  intro fuel
  induction fuel with
  | zero => exact ⟨rfl, rfl⟩
  | succ n ih =>
    constructor
    · rw [updateRawFuel]
      simp [getUserProfileRaw, hsome, hbad, ih.2]
    · rw [createRawFuel]
      simp [hsome, ih.1]

/-- C10: update_user_profile auto-creates only for the no-file kind of
absence — there, within two call frames, it writes the serialized fresh
profile whose unsupplied fields take the built-in defaults (age 30,
height 170.0, weight 65.0, and so on) while add_consultation_record
refuses.  For the fails-to-parse kind of absence the claim breaks on the
code: update treats the profile as absent and calls create, create sees
the file exists and calls update back, and for every recursion budget the
pair exhausts it with no result and no write (a RecursionError in
Python); add_consultation_record still just refuses. -/
theorem c10_raw_update_contract (fs : RawFs)
    (parse : String → Option UserProfile) (ser : UserProfile → String)
    (uid : String) (kw : ProfileKwargs) (now : Timestamp) (q a c : String)
    (fuel : Nat) : RawUpdateContract fs parse ser uid kw now q a c fuel := by
  unfold RawUpdateContract
  constructor
  · intro hnone
    refine ⟨?_, rfl, rfl, rfl, rfl, rfl, ?_⟩
    · rw [updateRawFuel]
      simp only [getUserProfileRaw, hnone]
      rw [createRawFuel]
      simp [hnone]
    · simp [addConsultationRecordRaw, getUserProfileRaw, hnone]
  · intro content hsome hbad
    rcases raw_mutual_recursion_diverges fs parse ser uid kw now content
      hsome hbad fuel with ⟨hu, hc⟩
    refine ⟨hu, hc, ?_⟩
    simp [addConsultationRecordRaw, getUserProfileRaw, hsome, hbad]

/-- Witness for C10 at the failing input: user u1 whose backing file holds
unparseable bytes — update and create return no result at recursion
budget 7 (and, by the theorem, at every budget), and append-consultation
refuses; and at the genuinely absent user u2, update succeeds and writes
the serialized default-filled fresh profile. -/
theorem c10_raw_update_witness :
    (updateRawFuel 7 c8Fs c8Parse c10Ser "u1" { name := some "张三" } 3 = none
      ∧ createRawFuel 7 c8Fs c8Parse c10Ser "u1" { name := some "张三" } 3 = none
      ∧ addConsultationRecordRaw c8Fs c8Parse c10Ser "u1" "q" "a" "c" 3 = (false, c8Fs))
    ∧ updateRawFuel 9 (fun _ => none) c8Parse c10Ser "u2" { name := some "李四" } 4
        = some (true, setFile (fun _ => none) (userFilepath "u2")
            (c10Ser (freshProfile "u2" { name := some "李四" } 4))) :=
  ⟨(c10_raw_update_contract c8Fs c8Parse c10Ser "u1" { name := some "张三" } 3
      "q" "a" "c" 7).2 "not json" rfl rfl,
   ((c10_raw_update_contract (fun _ => none) c8Parse c10Ser "u2"
      { name := some "李四" } 4 "q" "a" "c" 7).1 rfl).1⟩

/-- Witness for C1: the query 苹果 against a table containing the 苹果 row,
with the USDA tier stubbed to miss and nonempty semantic candidates in
scope, resolves to the 苹果 record at tier Local. -/
theorem c1_witness :
    c1Env.usda.isMiss = true ∧ c1Env.localRaises = false
    ∧ getNutritionByName c1Env.table "苹果" = some appleRec
    ∧ runEngine c1Env "苹果" = .foundLocal appleRec := by
  refine ⟨by decide, rfl, by decide, ?_⟩
  exact (c1_local_exact_short_circuit c1Env "苹果" appleRec (by decide) rfl (by decide)).1

/-- C2: for every environment, including ones where the USDA helper, the
local-database step, or the Nutritionix call raises, NutritionQueryTool._run
yields exactly one of the three outcome shapes (found, suggestions, typed
not-found) and never the exception shape; and NutritionAgent.chat always
returns an answer string, even when the agent executor raises. -/
theorem c2_run_total_and_chat_string (env : EngineEnv) (q : String)
    (cenv : ChatEnv) (uid msg : String) :
    ((runEngine env q).isFound = true ∨ (runEngine env q).isSuggestions = true
      ∨ (runEngine env q).isNotFound = true)
    ∧ (∀ e, runEngine env q ≠ .exception e)
    ∧ (∃ s, (chat cenv uid msg).1 = .answer s) := by
  refine ⟨runEngine_classified env q, ?_, ?_⟩
  · intro e h
    rcases runEngine_classified env q with hc | hc | hc <;>
      rw [h] at hc <;>
      simp [Outcome.isFound, Outcome.isSuggestions, Outcome.isNotFound] at hc
  · cases h : cenv.agentRun (contextualize (cenv.store uid) msg) with
    | ok s => exact ⟨s, by simp [chat, h]⟩
    | error e => exact ⟨"处理用户消息时发生错误: " ++ e, by simp [chat, h]⟩

/-- Witness for C2 at a concrete environment whose agent executor raises:
the engine outcome is one of the three shapes and never an exception, and
chat still answers with a string. -/
theorem c2_witness :
    ((runEngine c1Env "苹果").isFound = true ∨ (runEngine c1Env "苹果").isSuggestions = true
      ∨ (runEngine c1Env "苹果").isNotFound = true)
    ∧ (∀ e, runEngine c1Env "苹果" ≠ .exception e)
    ∧ (∃ s, (chat c2ChatEnv "u1" "维生素C有什么用").1 = .answer s) :=
  c2_run_total_and_chat_string c1Env "苹果" c2ChatEnv "u1" "维生素C有什么用"

/-- Witness for the amended C5 at concrete call sites: the USDA request
for 鸡胸肉 carries no timeout while the Nutritionix request carries 10. -/
theorem c5_timeouts_witness :
    (usdaSearchRequest "https://api.nal.usda.gov/fdc/v1" "鸡胸肉").timeoutSeconds = none
    ∧ (nutritionixRequest "https://trackapi.nutritionix.com/v2/natural/nutrients"
        "鸡胸肉").timeoutSeconds = some 10 :=
  c5_timeouts "https://api.nal.usda.gov/fdc/v1" "鸡胸肉"
    "https://trackapi.nutritionix.com/v2/natural/nutrients" "鸡胸肉"

/-- C4 counterexample: a USDA response carrying the mapped nutrient 1003
(protein, value 5) together with the unmapped nutrient 1093 (sodium,
value 10) yields a nutrient dict holding only the mapped protein entry —
the unmapped nutrient is dropped entirely, not preserved under its native
name in any overflow bucket. -/
theorem c4_counterexample :
    nutrientValues [⟨"1003", 5⟩, ⟨"1093", 10⟩] = [("蛋白质", 5)]
    ∧ (nutrientValues [⟨"1003", 5⟩, ⟨"1093", 10⟩]).lookup "1093" = none
    ∧ (nutrientValues [⟨"1003", 5⟩, ⟨"1093", 10⟩]).length = 1 := by
  decide

theorem firstAcceptable_spec (q : String) (l : List (FoodRecord × ℚ))
    (hs : l.Sorted (fun a b => a.2 ≤ b.2)) {hit : FoodRecord × ℚ}
    (h : firstAcceptable q l = some hit) :
    acceptable q hit.1.food_name = true
    ∧ ∀ c ∈ l, acceptable q c.1.food_name = true → hit.2 ≤ c.2 := by
  induction l with
  | nil => simp [firstAcceptable] at h
  | cons c cs ih =>
    rw [firstAcceptable] at h
    by_cases ha : acceptable q c.1.food_name = true
    · rw [if_pos ha] at h
      have hc : c = hit := by injection h
      subst hc
      refine ⟨ha, ?_⟩
      intro c' hc' _
      rcases List.mem_cons.mp hc' with rfl | hmem
      · exact le_refl _
      · exact List.rel_of_sorted_cons hs c' hmem
    · rw [if_neg ha] at h
      rcases ih hs.of_cons h with ⟨h1, h2⟩
      refine ⟨h1, ?_⟩
      intro c' hc' hacc
      rcases List.mem_cons.mp hc' with rfl | hmem
      · exact absurd hacc ha
      · exact h2 c' hmem hacc

/-- C3: with the USDA tier missing or raising, the local step not raising
and no exact local match, the semantic candidate loop accepts a candidate
only if its name case-insensitively equals, contains or is contained by
the query; given the candidates arrive distance-ascending, the accepted
candidate is the smallest-distance acceptable one; and when none is
acceptable the engine returns the ordered candidate names as a
disambiguation outcome distinct from both found and not-found. -/
theorem c3_semantic_tier (env : EngineEnv) (q : String)
    (husda : env.usda.isMiss = true)
    (hlocal : env.localRaises = false)
    (hnoexact : getNutritionByName env.table q = none)
    (hsorted : env.semantic.Sorted (fun a b => a.2 ≤ b.2)) :
    SemanticTierSpec env q := by
  have hrun : runEngine env q = localAndBeyond env q := by
    cases hu : env.usda with
    | found d => rw [hu] at husda; simp [UsdaOutcome.isMiss] at husda
    | missed => simp [runEngine, hu]
    | raised e => simp [runEngine, hu]
  constructor
  · intro hit hfa
    rcases firstAcceptable_spec q env.semantic hsorted hfa with ⟨h1, h2⟩
    refine ⟨h1, h2, ?_⟩
    rw [hrun]
    cases hsem : env.semantic with
    | nil => rw [hsem] at hfa; simp [firstAcceptable] at hfa
    | cons c cs =>
      rw [hsem] at hfa
      simp [localAndBeyond, hlocal, hnoexact, hsem, hfa]
  · intro hnone hne
    cases hsem : env.semantic with
    | nil => exact absurd hsem hne
    | cons c cs =>
      rw [hsem] at hnone
      rw [hrun]
      simp [localAndBeyond, hlocal, hnoexact, hsem, hnone,
        Outcome.isFound, Outcome.isNotFound]

/-- Witness for C3: the query 苹果汁 against the concrete environment; the
candidate 苹果 is contained in the query, is accepted first, and the
semantic-tier conclusions hold. -/
theorem c3_witness :
    c3Env.usda.isMiss = true
    ∧ c3Env.localRaises = false
    ∧ getNutritionByName c3Env.table "苹果汁" = none
    ∧ c3Env.semantic.Sorted (fun a b => a.2 ≤ b.2)
    ∧ SemanticTierSpec c3Env "苹果汁" := by
  refine ⟨by decide, rfl, by decide, ?_, ?_⟩
  · simp [c3Env, List.sorted_cons]
  · exact c3_semantic_tier c3Env "苹果汁" (by decide) rfl (by decide)
      (by simp [c3Env, List.sorted_cons])

theorem addEntryFirst_map_date (ls : List DailyLog) (d : String) (e : DailyLogEntry) :
    (addEntryFirst ls d e).map (fun l => l.date) = ls.map (fun l => l.date) := by
  induction ls with
  | nil => rfl
  | cons l ls ih =>
    rw [addEntryFirst]
    by_cases h : l.date = d
    · rw [if_pos h]; simp
    · rw [if_neg h]; simp [ih]

theorem sorted_of_map_date_eq {l1 l2 : List DailyLog}
    (h : l1.map (fun l => l.date) = l2.map (fun l => l.date))
    (hs : l1.Sorted (fun a b : DailyLog => strLe a.date b.date = true)) :
    l2.Sorted (fun a b : DailyLog => strLe a.date b.date = true) := by
  have h1 : (l1.map (fun l => l.date)).Pairwise (fun x y : String => strLe x y = true) :=
    List.pairwise_map.mpr hs
  rw [h] at h1
  exact List.pairwise_map.mp h1

theorem sortLogsByDate_sorted (ls : List DailyLog) :
    (sortLogsByDate ls).Sorted (fun a b : DailyLog => strLe a.date b.date = true) :=
  List.sorted_insertionSort _ ls

theorem mem_sortLogsByDate {l : DailyLog} {ls : List DailyLog} :
    l ∈ sortLogsByDate ls ↔ l ∈ ls :=
  (List.perm_insertionSort _ ls).mem_iff

theorem addEntryFirst_mem_unique {ls : List DailyLog} {lu : DailyLog} {d : String}
    (hmem : lu ∈ ls) (hd : lu.date = d)
    (huniq : ∀ l ∈ ls, l.date = d → l = lu) (e : DailyLogEntry) :
    { lu with entries := lu.entries ++ [e] } ∈ addEntryFirst ls d e := by
  induction ls with
  | nil => simp at hmem
  | cons l ls ih =>
    rw [addEntryFirst]
    by_cases h : l.date = d
    · rw [if_pos h]
      have hl : l = lu := huniq l (List.mem_cons_self l ls) h
      subst hl
      exact List.mem_cons_self _ _
    · rw [if_neg h]
      have hmem' : lu ∈ ls := by
        rcases List.mem_cons.mp hmem with rfl | hm
        · exact absurd hd h
        · exact hm
      exact List.mem_cons_of_mem _
        (ih hmem' (fun l' hl' hld => huniq l' (List.mem_cons_of_mem _ hl') hld))

theorem updateUserProfile_store (s : Store) (uid : String) (kw : ProfileKwargs)
    (now : Timestamp) (p : UserProfile) (hp : s uid = some p) :
    (updateUserProfile s uid kw now).2 uid = some (mergeKnown p kw now) := by
  simp [updateUserProfile, hp, setStore]

theorem addConsultationRecord_store (s : Store) (uid q a c : String)
    (now : Timestamp) (p : UserProfile) (hp : s uid = some p) :
    (addConsultationRecord s uid q a c now).2 uid
      = some { p with consultations := p.consultations ++ [mkConsultation uid q a c now],
                      updated_at := now } := by
  simp [addConsultationRecord, hp, setStore]

theorem addDailyLogEntry_store (s : Store) (uid d : String) (e : DailyLogEntry)
    (now : Timestamp) (p : UserProfile) (hp : s uid = some p) :
    (addDailyLogEntry s uid d e now).2 uid
      = some { p with
          daily_logs :=
            if p.daily_logs.any (fun l => l.date == d) then
              addEntryFirst p.daily_logs d e
            else addEntryFirst (sortLogsByDate (p.daily_logs ++ [{ date := d }])) d e,
          updated_at := now } := by
  simp only [addDailyLogEntry, hp, setStore, if_pos rfl, if_true]

theorem setUserGoal_store (s : Store) (uid : String) (g : GoalData)
    (now : Timestamp) (p : UserProfile) (hp : s uid = some p) :
    (setUserGoal s uid g now).2 uid
      = some { p with
          goals := p.goals ++
            [{ goal_id := uid ++ "_goal_" ++ toString now
               description := g.description
               target_value := g.target_value
               unit := g.unit
               start_date := g.start_date
               target_date := g.target_date
               status := g.status.getD "active" }],
          updated_at := now } := by
  simp [setUserGoal, hp, setStore]

theorem updateGoalStatus_store (s : Store) (uid gid st : String)
    (now : Timestamp) (p : UserProfile) (hp : s uid = some p)
    (hany : (p.goals.any (fun g => g.goal_id == gid)) = true) :
    (updateGoalStatus s uid gid st now).2 uid
      = some { p with goals := setStatusFirst p.goals gid st, updated_at := now } := by
  simp [updateGoalStatus, hp, hany, setStore]

/-- C9: for every existing user, appending a daily-log entry for a date
with no existing log creates a new log for that date holding exactly that
entry and leaves the daily_logs list sorted ascending by date; and in the
concrete scenario, appending entry1 on 2024-01-01 and entry2 on 2024-01-02
makes the range query for [2024-01-01, 2024-01-02] return exactly those
two logs sorted ascending by date. -/
theorem c9_fresh_date_append :
    (∀ (s : Store) (uid : String) (p : UserProfile) (d : String)
        (e : DailyLogEntry) (now : Timestamp),
      s uid = some p →
      (p.daily_logs.any (fun l => l.date == d)) = false →
      FreshDateAppendSpec s uid d e now)
    ∧ getDailyLogsForPeriod
        ((addDailyLogEntry ((addDailyLogEntry c9Store "u1" "2024-01-01" c9Entry1 1).2)
            "u1" "2024-01-02" c9Entry2 2).2)
        "u1" "2024-01-01" "2024-01-02"
      = some [{ date := "2024-01-01", entries := [c9Entry1] },
              { date := "2024-01-02", entries := [c9Entry2] }] := by
  constructor
  · intro s uid p d e now hp hfresh
    have hnotd : ∀ l ∈ p.daily_logs, l.date ≠ d := by
      intro l hl hld
      have hx : p.daily_logs.any (fun l => l.date == d) = true :=
        List.any_eq_true.mpr ⟨l, hl, by simp [hld]⟩
      rw [hfresh] at hx
      exact Bool.false_ne_true hx
    have hfst : (addDailyLogEntry s uid d e now).1 = true := by
      simp [addDailyLogEntry, hp]
    have hstore := addDailyLogEntry_store s uid d e now p hp
    rw [hfresh] at hstore
    simp only [Bool.false_eq_true, if_false] at hstore
    unfold FreshDateAppendSpec
    refine ⟨hfst, _, hstore, ?_, ?_, rfl⟩
    · exact sorted_of_map_date_eq
        (addEntryFirst_map_date (sortLogsByDate (p.daily_logs ++ [{ date := d }])) d e).symm
        (sortLogsByDate_sorted _)
    · have hu : ({ date := d } : DailyLog) ∈
          sortLogsByDate (p.daily_logs ++ [{ date := d }]) :=
        mem_sortLogsByDate.mpr (List.mem_append.mpr (Or.inr (by simp)))
      have huniq : ∀ l ∈ sortLogsByDate (p.daily_logs ++ [{ date := d }]),
          l.date = d → l = { date := d } := by
        intro l hl hld
        rcases List.mem_append.mp (mem_sortLogsByDate.mp hl) with hml | hml
        · exact absurd hld (hnotd l hml)
        · simpa using hml
      have := addEntryFirst_mem_unique hu rfl huniq e
      simpa using this
  · decide

/-- Witness for C9's universally quantified part: appending the first
scenario entry on the fresh date 2024-01-01 for the stored user u1. -/
theorem c9_witness :
    c9Store "u1" = some (freshProfile "u1" {} 0)
    ∧ ((freshProfile "u1" {} 0).daily_logs.any
        (fun l => l.date == "2024-01-01")) = false
    ∧ FreshDateAppendSpec c9Store "u1" "2024-01-01" c9Entry1 1 :=
  ⟨by decide, by decide,
    c9_fresh_date_append.1 c9Store "u1" (freshProfile "u1" {} 0) "2024-01-01"
      c9Entry1 1 (by decide) (by decide)⟩

theorem setStatusFirst_forall₂ (gs : List Goal) (gid st : String) :
    List.Forall₂ (fun g g' => g' = g ∨ g' = { g with status := st })
      gs (setStatusFirst gs gid st) := by
  induction gs with
  | nil => exact List.Forall₂.nil
  | cons g gs ih =>
    rw [setStatusFirst]
    by_cases h : g.goal_id = gid
    · rw [if_pos h]
      refine List.Forall₂.cons (Or.inr rfl) ?_
      exact List.forall₂_same.mpr (fun a _ => Or.inl rfl)
    · rw [if_neg h]
      exact List.Forall₂.cons (Or.inl rfl) ih

theorem addEntryFirst_append_only (ls : List DailyLog) (d : String)
    (e : DailyLogEntry) :
    ∀ l ∈ ls, ∃ l' ∈ addEntryFirst ls d e,
      l'.date = l.date ∧ ∃ t, l'.entries = l.entries ++ t := by
  induction ls with
  | nil => intro l h; simp at h
  | cons x xs ih =>
    intro l hl
    rw [addEntryFirst]
    by_cases h : x.date = d
    · rw [if_pos h]
      rcases List.mem_cons.mp hl with rfl | hm
      · exact ⟨{ l with entries := l.entries ++ [e] },
          List.mem_cons_self _ _, rfl, [e], rfl⟩
      · exact ⟨l, List.mem_cons_of_mem _ hm, rfl, [], by simp⟩
    · rw [if_neg h]
      rcases List.mem_cons.mp hl with rfl | hm
      · exact ⟨l, List.mem_cons_self _ _, rfl, [], by simp⟩
      · rcases ih l hm with ⟨l', hl', hd', ht⟩
        exact ⟨l', List.mem_cons_of_mem _ hl', hd', ht⟩

/-- C7 amended: for every stored profile and strictly advanced clock,
each successful mutating operation strictly increases updated_at; the
dedicated append operations only append to their collections,
update_goal_status changes at most the status field of existing goals,
while update_user_profile (which merges every known field a caller
passes, collections included) guarantees only the timestamp advance. -/
theorem c7_mutation_contract (s : Store) (uid : String) (p : UserProfile)
    (now : Timestamp) (hp : s uid = some p) (hc : p.updated_at < now) :
    MutationContract s uid p now := by
  refine ⟨?_, ?_, ?_, ?_, ?_⟩
  · intro kw p' _ h2
    rw [updateUserProfile_store s uid kw now p hp] at h2
    obtain rfl : mergeKnown p kw now = p' := by injection h2
    exact ⟨rfl, hc⟩
  · intro q a c p' _ h2
    rw [addConsultationRecord_store s uid q a c now p hp] at h2
    obtain rfl : _ = p' := by injection h2
    exact ⟨rfl, hc, rfl, rfl, rfl⟩
  · intro d e p' _ h2
    rw [addDailyLogEntry_store s uid d e now p hp] at h2
    obtain rfl : _ = p' := by injection h2
    refine ⟨rfl, hc, rfl, rfl, ?_⟩
    by_cases hany : (p.daily_logs.any (fun l => l.date == d)) = true
    · simp only [hany, if_true]
      exact addEntryFirst_append_only p.daily_logs d e
    · have hany' : (p.daily_logs.any (fun l => l.date == d)) = false :=
        Bool.eq_false_iff.mpr hany
      simp only [hany', Bool.false_eq_true, if_false]
      intro l hl
      have hmem : l ∈ sortLogsByDate (p.daily_logs ++ [{ date := d }]) :=
        mem_sortLogsByDate.mpr (List.mem_append.mpr (Or.inl hl))
      exact addEntryFirst_append_only _ d e l hmem
  · intro g p' _ h2
    rw [setUserGoal_store s uid g now p hp] at h2
    obtain rfl : _ = p' := by injection h2
    exact ⟨rfl, hc, rfl, rfl, _, rfl⟩
  · intro gid st p' h1 h2
    by_cases hany : (p.goals.any (fun g => g.goal_id == gid)) = true
    · rw [updateGoalStatus_store s uid gid st now p hp hany] at h2
      obtain rfl : _ = p' := by injection h2
      exact ⟨rfl, hc, rfl, rfl, setStatusFirst_forall₂ p.goals gid st⟩
    · have hany' : (p.goals.any (fun g => g.goal_id == gid)) = false :=
        Bool.eq_false_iff.mpr hany
      simp only [updateGoalStatus, hp, hany', Bool.false_eq_true, if_false] at h1

/-- C7 counterexample: a successful update_user_profile call that passes
consultations=[] empties the stored consultations collection, removing
the previously stored record — so the listed mutating operations are not
all append-only on the three collections, as the claim states. -/
theorem c7_counterexample :
    (updateUserProfile c7Store "u1" { consultations := some [] } 2).1 = true
    ∧ ((updateUserProfile c7Store "u1" { consultations := some [] } 2).2 "u1").map
        (fun p => p.consultations) = some []
    ∧ c7Profile.consultations.length = 1 := by
  decide

/-- Witness for the amended C7 at the concrete one-user store with the
clock advanced to 5. -/
theorem c7_mutation_contract_witness :
    c7Store "u1" = some c7Profile
    ∧ c7Profile.updated_at < 5
    ∧ MutationContract c7Store "u1" c7Profile 5 :=
  ⟨by decide, by decide, c7_mutation_contract c7Store "u1" c7Profile 5 (by decide) (by decide)⟩

end NutritionAgent
